import Mathlib

set_option maxHeartbeats 1600000

/-!
A shallow embedding of the core of the LaserProjectSE repository
(src/app/utils.py, src/app/models.py, src/app/undo.py, src/app/scene_tab.py
and the codec part of src/app/main_window.py), together with proofs about
that embedding.  UI plumbing (Qt widgets, rendering, file dialogs, the
settings store) is outside the embedding; every definition below is a direct
translation of the corresponding Python function's data manipulation.
-/

/-- An integer coordinate pair, as stored in SceneElement.points. -/
abbrev Pt := Int × Int

/-- An RGB triple of plain ints (src/app/models.py stores colors this way). -/
abbrev RGB := Int × Int × Int

/-- color_to_code from src/app/utils.py (lines 5-11): dominant-channel
quantization with ties resolved red, then green, then blue. -/
def color_to_code (c : RGB) : Int :=
  if c.1 ≥ c.2.1 ∧ c.1 ≥ c.2.2 then 1
  else if c.2.1 ≥ c.1 ∧ c.2.1 ≥ c.2.2 then 2
  else 3

/-- code_to_color from src/app/utils.py (lines 13-18). -/
def code_to_color (code : Int) : RGB :=
  if code = 1 then (255, 0, 0)
  else if code = 2 then (0, 255, 0)
  else (0, 0, 255)

/-- circle_to_points from src/app/utils.py (lines 21-32).  The loop body
computes, in floating point, the pair
(int(round(cx + r cos(2 pi i / s))), int(round(cy + r sin(2 pi i / s)))).
That floating-point computation is abstracted here as the function argument
sampler (applied to the center, radius, step count and loop index): the
properties verified in this file depend only on how many points are produced
and never on their trigonometric values. -/
def circle_to_points (sampler : Pt → Int → Int → Nat → Pt) (cen : Pt) (r : Int) (s : Int) :
    List Pt :=
  if r ≤ 0 ∨ s ≤ 0 then []
  else (List.range s.toNat).map (sampler cen r s)

/-- SceneElement from src/app/models.py.  The eid field models Python object
identity (id(el)); it takes no part in equality tests, because the dataclass
decorator generates a structural equality comparing only kind, points, color
and radius. -/
structure SceneElement where
  eid : Nat
  kind : String
  points : List Pt
  color : RGB
  radius : Int
deriving DecidableEq

/-- The tuple of fields compared by the dataclass-generated equality of
SceneElement (everything except the object identity). -/
def dataOf (el : SceneElement) : String × List Pt × RGB × Int :=
  (el.kind, el.points, el.color, el.radius)

/-- Python equality on SceneElement values: the dataclass compares the field
tuple, so two distinct objects with equal fields compare equal. -/
def pyEq (a b : SceneElement) : Bool :=
  dataOf a == dataOf b

/-- Python membership test (el in elements).  The interpreter tests identity
or equality against each item; identity implies dataclass equality here, so
the test reduces to structural equality against some member. -/
def pyIn (el : SceneElement) (l : List SceneElement) : Bool :=
  l.any (fun e => pyEq e el)

/-- Python list.remove(el): drop the first member comparing equal to el. -/
def pyRemove (el : SceneElement) : List SceneElement → List SceneElement
  | [] => []
  | e :: rest => if pyEq e el then rest else e :: pyRemove el rest

/-- The operation tag stored in the UndoManager stacks (the strings
"add" and "remove" in src/app/undo.py). -/
inductive HistKind
  | add
  | remove
deriving DecidableEq

/-- UndoManager from src/app/undo.py: two stacks of (kind, element) pairs.
The top of each stack is the head of the list. -/
structure UndoManager where
  undoStack : List (HistKind × SceneElement)
  redoStack : List (HistKind × SceneElement)
deriving DecidableEq

/-- UndoManager.push_add (undo.py lines 9-11): push and clear the redo stack. -/
def push_add (u : UndoManager) (el : SceneElement) : UndoManager :=
  ⟨(HistKind.add, el) :: u.undoStack, []⟩

/-- UndoManager.push_remove (undo.py lines 13-15): push and clear the redo stack. -/
def push_remove (u : UndoManager) (el : SceneElement) : UndoManager :=
  ⟨(HistKind.remove, el) :: u.undoStack, []⟩

/-- UndoManager.undo (undo.py lines 23-33), acting on the stacks and the
element list.  Popping an add entry removes the element (only if a structural
match is present) and pushes the entry onto the redo stack; popping a remove
entry re-appends the element at the end of the list. -/
def um_undo (u : UndoManager) (elements : List SceneElement) :
    UndoManager × List SceneElement :=
  match u.undoStack with
  | [] => (u, elements)
  | (HistKind.add, el) :: rest =>
      (⟨rest, (HistKind.add, el) :: u.redoStack⟩,
       if pyIn el elements then pyRemove el elements else elements)
  | (HistKind.remove, el) :: rest =>
      (⟨rest, (HistKind.remove, el) :: u.redoStack⟩, elements ++ [el])

/-- UndoManager.redo (undo.py lines 35-45), symmetric to um_undo. -/
def um_redo (u : UndoManager) (elements : List SceneElement) :
    UndoManager × List SceneElement :=
  match u.redoStack with
  | [] => (u, elements)
  | (HistKind.add, el) :: rest =>
      (⟨(HistKind.add, el) :: u.undoStack, rest⟩, elements ++ [el])
  | (HistKind.remove, el) :: rest =>
      (⟨(HistKind.remove, el) :: u.undoStack, rest⟩,
       if pyIn el elements then pyRemove el elements else elements)

/-- The document-model state of a SceneTab (scene_tab.py __init__): the grid
size, the current drawing color cc, the in-progress polyline buffer, the
in-progress circle center, the committed element list and the undo manager.
Qt view state is not part of the embedding. -/
structure SceneTab where
  grid_size : Int
  cc : RGB
  temp_points : List Pt
  circle_center : Option Pt
  elements : List SceneElement
  um : UndoManager
deriving DecidableEq

/-- A freshly constructed SceneTab (scene_tab.py lines 18-38): empty document,
red drawing color, empty history. -/
def init_tab (g : Int) : SceneTab :=
  ⟨g, (255, 0, 0), [], none, [], ⟨[], []⟩⟩

/-- Appending a click to the in-progress polyline buffer
(scene_tab.py line 198). -/
def add_temp_point (s : SceneTab) (p : Pt) : SceneTab :=
  { s with temp_points := s.temp_points ++ [p] }

/-- Selecting the current drawing color (the UI writes sc.cc). -/
def set_color (s : SceneTab) (c : RGB) : SceneTab :=
  { s with cc := c }

/-- SceneTab.commit_polyline (scene_tab.py lines 117-126).  The fresh
argument models the object identity given to the newly allocated element. -/
def commit_polyline (s : SceneTab) (fresh : Nat) : SceneTab × Option SceneElement :=
  if 2 ≤ s.temp_points.length then
    let el : SceneElement := ⟨fresh, "polyline", s.temp_points, s.cc, 0⟩
    ({ s with elements := s.elements ++ [el], um := push_add s.um el, temp_points := [] },
     some el)
  else (s, none)

/-- SceneTab.commit_circle_from_center (scene_tab.py lines 128-135). -/
def commit_circle_from_center (s : SceneTab) (fresh : Nat) (cen : Pt) (r : Int) :
    SceneTab × SceneElement :=
  let el : SceneElement := ⟨fresh, "circle", [cen], s.cc, r⟩
  ({ s with elements := s.elements ++ [el], um := push_add s.um el, circle_center := none },
   el)

/-- SceneTab.clear_temporary (scene_tab.py lines 137-140). -/
def clear_temporary (s : SceneTab) : SceneTab :=
  { s with temp_points := [], circle_center := none }

/-- SceneTab.clear_all (scene_tab.py lines 142-148): the history manager is
replaced wholesale. -/
def clear_all (s : SceneTab) : SceneTab :=
  { s with elements := [], um := ⟨[], []⟩, temp_points := [], circle_center := none }

/-- SceneTab.remove_element (scene_tab.py lines 150-155).  Membership is the
Python in test, i.e. dataclass structural equality. -/
def remove_element (s : SceneTab) (el : SceneElement) : SceneTab :=
  if pyIn el s.elements then
    { s with elements := pyRemove el s.elements, um := push_remove s.um el }
  else s

/-- SceneTab.undo (scene_tab.py lines 157-160). -/
def tab_undo (s : SceneTab) : SceneTab :=
  let r := um_undo s.um s.elements
  { s with um := r.1, elements := r.2 }

/-- SceneTab.redo (scene_tab.py lines 162-165). -/
def tab_redo (s : SceneTab) : SceneTab :=
  let r := um_redo s.um s.elements
  { s with um := r.1, elements := r.2 }

/-- Coordinate clamping as performed by MainWindow._on_table_item_changed
(main_window.py lines 413-414): max(0, min(grid_size, v)). -/
def clampGrid (g v : Int) : Int :=
  max 0 (min g v)

/-- mutate_point: the table-driven point edit of
MainWindow._on_table_item_changed, columns 4 and 5 (main_window.py lines
405-424), given the already-parsed integer cell values.  The clamped pair is
stored for a polyline vertex with a valid sub index, or for a circle center
(sub index 0); no history entry is pushed.  In Python an out-of-range index
raises IndexError which the surrounding try swallows, leaving the state
unchanged, exactly as the fallthrough branches here. -/
def mutate_point (s : SceneTab) (el_idx sub_idx : Nat) (x y : Int) : SceneTab :=
  match s.elements[el_idx]? with
  | none => s
  | some el =>
    let x1 := clampGrid s.grid_size x
    let y1 := clampGrid s.grid_size y
    if el.kind = "polyline" then
      if sub_idx < el.points.length then
        { s with elements :=
            s.elements.set el_idx { el with points := el.points.set sub_idx (x1, y1) } }
      else s
    else if el.kind = "circle" then
      if sub_idx = 0 then
        { s with elements :=
            s.elements.set el_idx { el with points := el.points.set 0 (x1, y1) } }
      else s
    else s

/-- mutate_radius: the table-driven radius edit of
MainWindow._on_table_item_changed, column 6 (main_window.py lines 425-430),
given the already-parsed integer cell value: stores max(0, val) for a circle;
no history entry is pushed. -/
def mutate_radius (s : SceneTab) (el_idx : Nat) (v : Int) : SceneTab :=
  match s.elements[el_idx]? with
  | none => s
  | some el =>
    if el.kind = "circle" then
      { s with elements := s.elements.set el_idx { el with radius := max 0 v } }
    else s

/-- Parser-relevant classification of one stripped line of the laser text
format, as performed by MainWindow.import_laser_format (main_window.py lines
615-645): blank lines are skipped; a line whose uppercase starts with COLOR
carries an optional integer argument (a missing or unparsable second token
falls back to code 1, modelled by none); the line STOP is the terminator; a
line parsing as int,int is a coordinate pair; anything else is junk and is
skipped.  MainWindow.export_laser_format emits exactly the lines
COLOR n (here color (some n)), x,y (here coord x y) and STOP (here stop),
and the printed decimal integers reparse to themselves. -/
inductive LaserLine
  | color (arg : Option Int)
  | stop
  | coord (x y : Int)
  | junk
  | blank
deriving DecidableEq

/-- The accumulating state shared by the laser importer and the CSV importer:
the fresh tab's element list and undo manager being filled in, the current
color (None until a color is established), the pending point group, and the
next object identity to allocate. -/
structure ImportAcc where
  elements : List SceneElement
  um : UndoManager
  cc : Option RGB
  cp : List Pt
  nid : Nat
deriving DecidableEq

/-- Extracting the established color when flushing a point group.  Both
importers only flush under a guard that guarantees the color is set (or, for
the CSV importer, under the invariant that a nonempty group forces a set
color); the none branch is unreachable there and stands for the Python None. -/
def colorOf (o : Option RGB) : RGB :=
  o.getD (0, 0, 0)

/-- The shared flush: append SceneElement("polyline", cp, cc) to the tab and
push an add history entry (main_window.py lines 621-624, 634-637, 647-649). -/
def flush_poly (a : ImportAcc) : ImportAcc :=
  let el : SceneElement := ⟨a.nid, "polyline", a.cp, colorOf a.cc, 0⟩
  { a with elements := a.elements ++ [el], um := push_add a.um el,
           cp := [], nid := a.nid + 1 }

/-- One iteration of the import_laser_format while loop (main_window.py lines
615-645).  COLOR flushes only when points are pending and a color is already
established, then sets the color; STOP flushes under the same guard and
always resets the accumulator; a coordinate line appends to the accumulator;
blank and unparsable lines are skipped. -/
def laserStep (a : ImportAcc) (ln : LaserLine) : ImportAcc :=
  match ln with
  | .blank => a
  | .junk => a
  | .color arg =>
      let a1 := if a.cp ≠ [] ∧ a.cc.isSome then flush_poly a else a
      { a1 with cc := some (code_to_color (arg.getD 1)) }
  | .stop =>
      let a1 := if a.cp ≠ [] ∧ a.cc.isSome then flush_poly a else a
      { a1 with cp := [] }
  | .coord x y => { a with cp := a.cp ++ [(x, y)] }

/-- The end-of-stream flush of import_laser_format (main_window.py lines
647-649). -/
def laserFinish (a : ImportAcc) : ImportAcc :=
  if a.cp ≠ [] ∧ a.cc.isSome then flush_poly a else a

/-- The accumulator for a freshly created tab (import targets a new scene
tab); nid is the first object identity the importer will allocate. -/
def freshAcc (nid : Nat) : ImportAcc :=
  ⟨[], ⟨[], []⟩, none, [], nid⟩

/-- MainWindow.import_laser_format (main_window.py lines 594-654) on an
already-line-classified stream, starting from a fresh tab. -/
def import_laser_format (lines : List LaserLine) (nid : Nat) : ImportAcc :=
  laserFinish (lines.foldl laserStep (freshAcc nid))

/-- Python round() (round half to even) on an exact rational, used to model
the normalize branch of the exporter. -/
def roundHalfEven (q : ℚ) : Int :=
  let f : Int := ⌊q⌋
  let r : ℚ := q - f
  if r < 1 / 2 then f
  else if 1 / 2 < r then f + 1
  else if f % 2 = 0 then f else f + 1

/-- The normalize rescaling of export_laser_format (main_window.py lines
583-584): round((v / max(1, g)) * 255), modelled with exact rationals. -/
def normCoord (g v : Int) : Int :=
  roundHalfEven ((v : ℚ) / (max 1 g : ℚ) * 255)

/-- The per-element body of MainWindow.export_laser_format (main_window.py
lines 572-588): a COLOR directive with the quantized color, one coordinate
line per point (polylines emit their stored points; circles are rasterized
with circle_to_points), then STOP. -/
def export_element (sampler : Pt → Int → Int → Nat → Pt) (steps : Int)
    (normalize : Bool) (g : Int) (el : SceneElement) : List LaserLine :=
  let pts : List Pt :=
    if el.kind = "polyline" then el.points
    else if el.kind = "circle" then
      circle_to_points sampler (el.points.headD (0, 0)) el.radius steps
    else []
  let emit : Pt → LaserLine := fun p =>
    if normalize then LaserLine.coord (normCoord g p.1) (normCoord g p.2)
    else LaserLine.coord p.1 p.2
  LaserLine.color (some (color_to_code el.color)) :: pts.map emit ++ [LaserLine.stop]

/-- MainWindow.export_laser_format (main_window.py lines 555-592) over the
document's element list, in order. -/
def export_laser_format (sampler : Pt → Int → Int → Nat → Pt) (steps : Int)
    (normalize : Bool) (g : Int) : List SceneElement → List LaserLine
  | [] => []
  | el :: rest =>
      export_element sampler steps normalize g el ++
        export_laser_format sampler steps normalize g rest

/-- One CSV cell as the importer sees it: the column may be absent from the
record (missing), hold text that int(float(.)) parses to n (num n), or hold
text that fails numeric parsing and raises (bad). -/
inductive CsvField
  | missing
  | num (n : Int)
  | bad
deriving DecidableEq

/-- One CSV record of MainWindow.open_csv (the csv.DictReader path). -/
structure CsvRow where
  kind : Option String
  x : CsvField
  y : CsvField
  r : CsvField
  g : CsvField
  b : CsvField
  radius : CsvField
deriving DecidableEq

/-- int(float(row.get(key, 0))) from main_window.py lines 518-522: a missing
column defaults to 0, a numeric string parses, a non-numeric string raises
(none).  The radius cell (line 542, int(radius) with missing/blank/None
giving 0) coerces the same way at this level of abstraction. -/
def coerceField : CsvField → Option Int
  | .missing => some 0
  | .num n => some n
  | .bad => none

/-- One iteration of the open_csv row loop (main_window.py lines 516-544).
The returned flag is true when the row raised (a bad numeric cell), in which
case the exception escapes open_csv and the import stops with the state
mutated so far.  The x, y, r, g, b cells are coerced before any branching;
in the circle branch the pending polyline is flushed before the radius cell
is coerced, exactly as in the source. -/
def csvRowStep (a : ImportAcc) (row : CsvRow) : ImportAcc × Bool :=
  match coerceField row.x, coerceField row.y, coerceField row.r,
        coerceField row.g, coerceField row.b with
  | some x, some y, some rc, some gc, some bc =>
    let kind := row.kind.getD "polyline"
    let color : RGB := (rc, gc, bc)
    if kind = "polyline" then
      let start : RGB × List Pt :=
        match a.cc with
        | none => (color, [])
        | some c0 => (c0, a.cp)
      let cc1 := start.1
      let cp1 := start.2
      if color ≠ cc1 ∧ cp1 ≠ [] then
        let el : SceneElement := ⟨a.nid, "polyline", cp1, cc1, 0⟩
        ({ a with elements := a.elements ++ [el], um := push_add a.um el,
                  cp := [(x, y)], cc := some color, nid := a.nid + 1 }, false)
      else
        ({ a with cp := cp1 ++ [(x, y)], cc := some cc1 }, false)
    else if kind = "circle" then
      let a1 :=
        if a.cp ≠ [] then
          let el : SceneElement := ⟨a.nid, "polyline", a.cp, colorOf a.cc, 0⟩
          { a with elements := a.elements ++ [el], um := push_add a.um el,
                   cp := [], cc := none, nid := a.nid + 1 }
        else a
      match coerceField row.radius with
      | none => (a1, true)
      | some rr =>
        let el : SceneElement := ⟨a1.nid, "circle", [(x, y)], color, rr⟩
        ({ a1 with elements := a1.elements ++ [el], um := push_add a1.um el,
                   nid := a1.nid + 1 }, false)
    else (a, false)
  | _, _, _, _, _ => (a, true)

/-- The open_csv row loop: runs rows in order and stops at the first row that
raises, reporting whether the import aborted. -/
def csvLoop : List CsvRow → ImportAcc → ImportAcc × Bool
  | [], a => (a, false)
  | row :: rest, a =>
    match csvRowStep a row with
    | (a1, false) => csvLoop rest a1
    | (a1, true) => (a1, true)

/-- The trailing flush of open_csv (main_window.py lines 546-548), reached
only when no row raised. -/
def csvFinish (a : ImportAcc) : ImportAcc :=
  if a.cp ≠ [] then
    let el : SceneElement := ⟨a.nid, "polyline", a.cp, colorOf a.cc, 0⟩
    { a with elements := a.elements ++ [el], um := push_add a.um el,
             cp := [], nid := a.nid + 1 }
  else a

/-- MainWindow.open_csv (main_window.py lines 491-553) on parsed records,
starting from a fresh tab: the final accumulator and whether the import
aborted on a malformed cell. -/
def open_csv (rows : List CsvRow) (nid : Nat) : ImportAcc × Bool :=
  match csvLoop rows (freshAcc nid) with
  | (a, true) => (a, true)
  | (a, false) => (csvFinish a, false)

/-- True when the cell cannot raise during numeric coercion. -/
def goodField : CsvField → Bool
  | .bad => false
  | _ => true

/-- True when no cell of the row can raise during numeric coercion. -/
def goodRow (row : CsvRow) : Bool :=
  goodField row.x && goodField row.y && goodField row.r && goodField row.g &&
    goodField row.b && goodField row.radius

/-- The document state produced by importing a laser stream (the importer
targets a freshly created scene tab with grid size g). -/
def laser_import_tab (g : Int) (lines : List LaserLine) (nid : Nat) : SceneTab :=
  let a := import_laser_format lines nid
  { init_tab g with elements := a.elements, um := a.um }

/-- The document state left by a CSV import (including one stopped by a
malformed cell: the exception escapes after the earlier rows mutated the
fresh tab). -/
def csv_import_tab (g : Int) (rows : List CsvRow) (nid : Nat) : SceneTab :=
  let a := (open_csv rows nid).1
  { init_tab g with elements := a.elements, um := a.um }

/-- One successful editing call of the scene API, with the in-progress state
it is issued under: poly stands for filling the click buffer with pts, picking
color c and calling commit_polyline; circle for picking color c and calling
commit_circle_from_center; removeEl for remove_element.  fresh is the object
identity allocated to the created element. -/
inductive EditAct
  | poly (fresh : Nat) (pts : List Pt) (c : RGB)
  | circle (fresh : Nat) (cen : Pt) (r : Int) (c : RGB)
  | removeEl (el : SceneElement)
deriving DecidableEq

/-- Running one editing call against the tab state. -/
def applyAct (s : SceneTab) : EditAct → SceneTab
  | .poly fresh pts c => (commit_polyline { s with temp_points := pts, cc := c } fresh).1
  | .circle fresh cen r c => (commit_circle_from_center { s with cc := c } fresh cen r).1
  | .removeEl el => remove_element s el

/-- Running a sequence of editing calls. -/
def applyActs (s : SceneTab) (acts : List EditAct) : SceneTab :=
  acts.foldl applyAct s

/-- Success of one editing call: commit_polyline needs at least two buffered
points, commit_circle_from_center always succeeds, remove_element needs the
element to be present. -/
def actOK (s : SceneTab) : EditAct → Bool
  | .poly _ pts _ => decide (2 ≤ pts.length)
  | .circle _ _ _ _ => true
  | .removeEl el => pyIn el s.elements

/-- Success of every call of a sequence, each judged in the state the
previous calls produced. -/
def seqOK : SceneTab → List EditAct → Bool
  | _, [] => true
  | s, a :: rest => actOK s a && seqOK (applyAct s a) rest

/-- The element created (or removed) by an editing call. -/
def elOf : EditAct → SceneElement
  | .poly fresh pts c => ⟨fresh, "polyline", pts, c, 0⟩
  | .circle fresh cen r c => ⟨fresh, "circle", [cen], c, r⟩
  | .removeEl el => el

/-- The history entry a successful call pushes. -/
def entryOf (a : EditAct) : HistKind × SceneElement :=
  match a with
  | .removeEl el => (HistKind.remove, el)
  | _ => (HistKind.add, elOf a)

/-- The effect of one successful call on the element list alone. -/
def pureStep (E : List SceneElement) : EditAct → List SceneElement
  | .removeEl el => pyRemove el E
  | a => E ++ [elOf a]

/-- The element list after a sequence of successful calls. -/
def runPure (E : List SceneElement) (acts : List EditAct) : List SceneElement :=
  acts.foldl pureStep E

/-- Success of a call sequence judged on the element list alone. -/
def runOK : List SceneElement → List EditAct → Bool
  | _, [] => true
  | E, a :: rest =>
    (match a with
     | .removeEl el => pyIn el E
     | _ => true) && runOK (pureStep E a) rest

/-- n applications of SceneTab.undo. -/
def iterUndo : Nat → SceneTab → SceneTab
  | 0, s => s
  | n + 1, s => iterUndo n (tab_undo s)

/-- n applications of SceneTab.redo. -/
def iterRedo : Nat → SceneTab → SceneTab
  | 0, s => s
  | n + 1, s => iterRedo n (tab_redo s)

/-- The imported mirror of a polyline document: what import_laser_format
builds back from an exported polyline-only document, element for element
(identities allocated in order, colors collapsed through the 3-way code). -/
def buildImported : Nat → List SceneElement → List SceneElement
  | _, [] => []
  | n, el :: rest =>
      ⟨n, "polyline", el.points, code_to_color (color_to_code el.color), 0⟩ ::
        buildImported (n + 1) rest

/-- The circle shape invariant: a circle element stores exactly its center. -/
def CircleOK (el : SceneElement) : Prop :=
  el.kind = "circle" → el.points.length = 1

/-- Every element referenced from a history stack satisfies the invariant. -/
def EntriesOK (l : List (HistKind × SceneElement)) : Prop :=
  ∀ e ∈ l, CircleOK e.2

/-- The invariant over a whole tab: committed elements and both stacks. -/
def TabOK (s : SceneTab) : Prop :=
  (∀ el ∈ s.elements, CircleOK el) ∧ EntriesOK s.um.undoStack ∧ EntriesOK s.um.redoStack

/-- The invariant over an importer accumulator. -/
def AccOK (a : ImportAcc) : Prop :=
  (∀ el ∈ a.elements, CircleOK el) ∧ EntriesOK a.um.undoStack ∧ EntriesOK a.um.redoStack

/-- The document states reachable through the core editing API: a fresh tab,
interactive drawing and committing, removal, undo, redo, the clears, the
table-driven in-place edits, and the states left by the two importers
(including a CSV import stopped by a malformed cell). -/
inductive Reachable : SceneTab → Prop
  | init (g : Int) : Reachable (init_tab g)
  | addTemp (s : SceneTab) (p : Pt) : Reachable s → Reachable (add_temp_point s p)
  | setCol (s : SceneTab) (c : RGB) : Reachable s → Reachable (set_color s c)
  | commitPoly (s : SceneTab) (fresh : Nat) :
      Reachable s → Reachable (commit_polyline s fresh).1
  | commitCircle (s : SceneTab) (fresh : Nat) (cen : Pt) (r : Int) :
      Reachable s → Reachable (commit_circle_from_center s fresh cen r).1
  | removeElR (s : SceneTab) (el : SceneElement) :
      Reachable s → Reachable (remove_element s el)
  | doUndo (s : SceneTab) : Reachable s → Reachable (tab_undo s)
  | doRedo (s : SceneTab) : Reachable s → Reachable (tab_redo s)
  | clearAllR (s : SceneTab) : Reachable s → Reachable (clear_all s)
  | clearTempR (s : SceneTab) : Reachable s → Reachable (clear_temporary s)
  | mutPoint (s : SceneTab) (i k : Nat) (x y : Int) :
      Reachable s → Reachable (mutate_point s i k x y)
  | mutRadius (s : SceneTab) (i : Nat) (v : Int) :
      Reachable s → Reachable (mutate_radius s i v)
  | csvImport (g : Int) (rows : List CsvRow) (nid : Nat) :
      Reachable (csv_import_tab g rows nid)
  | laserImport (g : Int) (lines : List LaserLine) (nid : Nat) :
      Reachable (laser_import_tab g lines nid)

/-! ## General lemmas about the Python equality, membership and removal -/

theorem pyEq_iff (a b : SceneElement) : pyEq a b = true ↔ dataOf a = dataOf b := by
  simp [pyEq]

theorem pyIn_iff (el : SceneElement) (l : List SceneElement) :
    pyIn el l = true ↔ ∃ e ∈ l, dataOf e = dataOf el := by
  simp [pyIn, List.any_eq_true, pyEq_iff]

theorem dataOf_fields {a b : SceneElement} (h : dataOf a = dataOf b) :
    a.kind = b.kind ∧ a.points = b.points ∧ a.color = b.color ∧ a.radius = b.radius := by
  simpa [dataOf, Prod.ext_iff] using h

theorem pyRemove_perm {el : SceneElement} {l : List SceneElement}
    (h : pyIn el l = true) :
    (l.map dataOf).Perm (dataOf el :: (pyRemove el l).map dataOf) := by
  induction l with
  | nil => simp [pyIn] at h
  | cons e rest ih =>
    by_cases hc : pyEq e el = true
    · have hd : dataOf e = dataOf el := (pyEq_iff e el).mp hc
      simp only [pyRemove, hc, if_true, List.map_cons, hd]
      simp
    · have h' : pyIn el rest = true := by
        simp only [pyIn, List.any_cons, Bool.or_eq_true] at h
        rcases h with h | h
        · exact absurd h hc
        · simpa [pyIn] using h
      simp only [pyRemove, hc, if_neg, Bool.false_eq_true, not_false_iff, List.map_cons]
      exact ((ih h').cons (dataOf e)).trans (List.Perm.swap (dataOf el) (dataOf e) _)

theorem pyRemove_mem {el x : SceneElement} {l : List SceneElement}
    (h : x ∈ pyRemove el l) : x ∈ l := by
  induction l with
  | nil => simp [pyRemove] at h
  | cons e rest ih =>
    by_cases hc : pyEq e el = true
    · simp only [pyRemove, hc, if_pos] at h
      exact List.mem_cons_of_mem _ h
    · simp only [pyRemove, hc] at h
      rcases List.mem_cons.mp h with h | h
      · exact h ▸ List.mem_cons_self _ _
      · exact List.mem_cons_of_mem _ (ih h)

/-! ## C3: the color quantization -/

/-- The code is one of 1, 2, 3. -/
theorem color_code_mem (c : RGB) :
    color_to_code c = 1 ∨ color_to_code c = 2 ∨ color_to_code c = 3 := by
  unfold color_to_code
  split_ifs <;> simp

/-- Quantizing a primary reproduces its code. -/
theorem code_roundtrip (c : RGB) :
    color_to_code (code_to_color (color_to_code c)) = color_to_code c := by
  rcases color_code_mem c with h | h | h <;> rw [h] <;> decide

/-- C3: for every RGB triple, color_to_code returns 1 when red is greater
than or equal to both other channels (red wins all ties), else 2 when green
is greater than or equal to both others (green wins ties against blue),
else 3; the result is always one of 1, 2, 3. -/
theorem c3_color_quantization (r g b : Int) :
    (r ≥ g ∧ r ≥ b → color_to_code (r, g, b) = 1) ∧
    (¬(r ≥ g ∧ r ≥ b) → g ≥ r ∧ g ≥ b → color_to_code (r, g, b) = 2) ∧
    (¬(r ≥ g ∧ r ≥ b) → ¬(g ≥ r ∧ g ≥ b) → color_to_code (r, g, b) = 3) ∧
    (color_to_code (r, g, b) = 1 ∨ color_to_code (r, g, b) = 2 ∨
      color_to_code (r, g, b) = 3) := by
  refine ⟨?_, ?_, ?_, color_code_mem (r, g, b)⟩ <;>
    · intro h
      first
        | (intro h2; unfold color_to_code; split_ifs <;> tauto)
        | (unfold color_to_code; split_ifs <;> tauto)

/-- Witness for C3 at a concrete tied triple. -/
theorem c3_color_quantization_witness :
    color_to_code (3, 7, 7) = 2 :=
  ((c3_color_quantization 3 7 7).2.1) (by omega) (by omega)

/-! ## C7: circle rasterization point count -/

/-- C7: circle_to_points yields exactly s points when r is positive and s is
positive, and the empty sequence when r or s is nonpositive (for any
floating-point sampling of the individual points). -/
theorem c7_circle_point_count (sampler : Pt → Int → Int → Nat → Pt)
    (cen : Pt) (r s : Int) :
    (0 < r → 0 < s → ((circle_to_points sampler cen r s).length : Int) = s) ∧
    (r ≤ 0 ∨ s ≤ 0 → circle_to_points sampler cen r s = []) := by
  constructor
  · intro hr hs
    unfold circle_to_points
    rw [if_neg (by omega)]
    simp [Int.toNat_of_nonneg (le_of_lt hs)]
  · intro h
    unfold circle_to_points
    rw [if_pos h]

/-- Witness for C7 at radius 1, 4 steps, and at radius 0. -/
theorem c7_circle_point_count_witness :
    ((circle_to_points (fun _ _ _ _ => (0, 0)) (0, 0) 1 4).length : Int) = 4 ∧
    circle_to_points (fun _ _ _ _ => (0, 0)) (5, 5) 0 90 = [] :=
  ⟨(c7_circle_point_count (fun _ _ _ _ => (0, 0)) (0, 0) 1 4).1 (by decide) (by decide),
   (c7_circle_point_count (fun _ _ _ _ => (0, 0)) (5, 5) 0 90).2 (by decide)⟩

/-! ## C6: commit_polyline -/

/-- C6: with at least two buffered points, commit_polyline appends a new
polyline element carrying the buffered points and the current color, pushes
an add history entry, clears the buffer and returns the element; with fewer
than two points it returns nothing and changes nothing. -/
theorem c6_commit_polyline (s : SceneTab) (fresh : Nat) :
    (2 ≤ s.temp_points.length →
      commit_polyline s fresh =
        ({ s with
            elements := s.elements ++ [⟨fresh, "polyline", s.temp_points, s.cc, 0⟩],
            um := ⟨(HistKind.add, ⟨fresh, "polyline", s.temp_points, s.cc, 0⟩) ::
                     s.um.undoStack, []⟩,
            temp_points := [] },
         some ⟨fresh, "polyline", s.temp_points, s.cc, 0⟩)) ∧
    (s.temp_points.length < 2 → commit_polyline s fresh = (s, none)) := by
  constructor
  · intro h
    simp [commit_polyline, h, push_add]
  · intro h
    simp [commit_polyline]
    omega

/-- Witness for C6: a two-point buffer commits, an empty buffer is a no-op. -/
theorem c6_commit_polyline_witness :
    commit_polyline ⟨255, (255, 0, 0), [(0, 0), (2, 3)], none, [], ⟨[], []⟩⟩ 7 =
      (⟨255, (255, 0, 0), [], none,
        [⟨7, "polyline", [(0, 0), (2, 3)], (255, 0, 0), 0⟩],
        ⟨[(HistKind.add, ⟨7, "polyline", [(0, 0), (2, 3)], (255, 0, 0), 0⟩)], []⟩⟩,
       some ⟨7, "polyline", [(0, 0), (2, 3)], (255, 0, 0), 0⟩) ∧
    commit_polyline ⟨255, (255, 0, 0), [(4, 4)], none, [], ⟨[], []⟩⟩ 9 =
      (⟨255, (255, 0, 0), [(4, 4)], none, [], ⟨[], []⟩⟩, none) := by
  constructor
  · exact (c6_commit_polyline ⟨255, (255, 0, 0), [(0, 0), (2, 3)], none, [], ⟨[], []⟩⟩ 7).1
      (by decide)
  · exact (c6_commit_polyline ⟨255, (255, 0, 0), [(4, 4)], none, [], ⟨[], []⟩⟩ 9).2
      (by decide)

/-! ## C9: removing an absent element -/

/-- C9 (amended): remove_element is a complete no-op exactly when no element
of the committed list compares equal to the reference under the dataclass
structural equality (kind, points, color, radius).  Because SceneElement is a
dataclass, the membership test is structural, not identity-based: a reference
absent by identity but structurally equal to a member is still removed. -/
theorem c9_remove_absent_noop (s : SceneTab) (el : SceneElement)
    (h : pyIn el s.elements = false) : remove_element s el = s := by
  simp [remove_element, h]

/-- Witness for C9 (amended): removing a structurally absent element changes
nothing. -/
theorem c9_remove_absent_noop_witness :
    remove_element ⟨255, (255, 0, 0), [], none,
        [⟨0, "polyline", [(0, 0), (1, 1)], (255, 0, 0), 0⟩], ⟨[], []⟩⟩
      ⟨3, "circle", [(9, 9)], (0, 0, 255), 4⟩ =
    ⟨255, (255, 0, 0), [], none,
        [⟨0, "polyline", [(0, 0), (1, 1)], (255, 0, 0), 0⟩], ⟨[], []⟩⟩ :=
  c9_remove_absent_noop _ _ (by decide)

/-- Counterexample to C9 as stated: the reference (identity 1) is not present
by identity in the list (whose only member has identity 0), yet remove_element
is not a no-op: it removes the structurally equal member and pushes a remove
history entry, because the dataclass membership test is structural. -/
theorem c9_identity_counterexample :
    (([⟨0, "polyline", [(0, 0), (1, 1)], (255, 0, 0), 0⟩] : List SceneElement).all
        (fun e => e.eid != 1)) = true ∧
    (remove_element ⟨255, (255, 0, 0), [], none,
        [⟨0, "polyline", [(0, 0), (1, 1)], (255, 0, 0), 0⟩], ⟨[], []⟩⟩
        ⟨1, "polyline", [(0, 0), (1, 1)], (255, 0, 0), 0⟩).elements = [] ∧
    (remove_element ⟨255, (255, 0, 0), [], none,
        [⟨0, "polyline", [(0, 0), (1, 1)], (255, 0, 0), 0⟩], ⟨[], []⟩⟩
        ⟨1, "polyline", [(0, 0), (1, 1)], (255, 0, 0), 0⟩).um.undoStack =
      [(HistKind.remove, ⟨1, "polyline", [(0, 0), (1, 1)], (255, 0, 0), 0⟩)] := by
  decide

/-! ## C4: the laser-format terminator -/

/-- C4 (amended): a STOP line never resets the current color and always
resets the point accumulator; it flushes the accumulated points as one
Polyline element (with an add history entry) exactly when a color has already
been established and points are pending, and the end-of-stream flush behaves
the same way; when no color has been established, STOP discards the pending
points and the end-of-stream flush does nothing. -/
theorem c4_terminator_flush (a : ImportAcc) :
    ((laserStep a LaserLine.stop).cc = a.cc) ∧
    ((laserStep a LaserLine.stop).cp = []) ∧
    (∀ c, a.cc = some c → a.cp ≠ [] →
      laserStep a LaserLine.stop =
        ⟨a.elements ++ [⟨a.nid, "polyline", a.cp, c, 0⟩],
         push_add a.um ⟨a.nid, "polyline", a.cp, c, 0⟩,
         some c, [], a.nid + 1⟩) ∧
    (a.cc = none → laserStep a LaserLine.stop = { a with cp := [] }) ∧
    (∀ c, a.cc = some c → a.cp ≠ [] →
      laserFinish a =
        ⟨a.elements ++ [⟨a.nid, "polyline", a.cp, c, 0⟩],
         push_add a.um ⟨a.nid, "polyline", a.cp, c, 0⟩,
         some c, [], a.nid + 1⟩) ∧
    (a.cc = none → laserFinish a = a) := by
  refine ⟨?_, ?_, ?_, ?_, ?_, ?_⟩
  · simp only [laserStep]
    split_ifs <;> simp [flush_poly]
  · simp [laserStep]
  · intro c hc hcp
    simp [laserStep, flush_poly, colorOf, hc, hcp]
  · intro hc
    simp [laserStep, hc]
  · intro c hc hcp
    simp [laserFinish, flush_poly, colorOf, hc, hcp]
  · intro hc
    simp [laserFinish, hc]

/-- Witness for C4 (amended): with an established red color and two pending
points, STOP flushes them as one polyline and keeps the color. -/
theorem c4_terminator_flush_witness :
    laserStep ⟨[], ⟨[], []⟩, some (255, 0, 0), [(1, 2), (3, 4)], 5⟩ LaserLine.stop =
      ⟨[⟨5, "polyline", [(1, 2), (3, 4)], (255, 0, 0), 0⟩],
       push_add ⟨[], []⟩ ⟨5, "polyline", [(1, 2), (3, 4)], (255, 0, 0), 0⟩,
       some (255, 0, 0), [], 6⟩ :=
  (c4_terminator_flush ⟨[], ⟨[], []⟩, some (255, 0, 0), [(1, 2), (3, 4)], 5⟩).2.2.1
    (255, 0, 0) rfl (by decide)

/-- Counterexample to C4 as stated: in a stream whose coordinate lines appear
before any COLOR directive, the points are accumulated but STOP does not
flush them as a Polyline element (the import produces no element at all),
because no color has been established. -/
theorem c4_unestablished_color_counterexample :
    (List.foldl laserStep (freshAcc 0)
        [LaserLine.coord 1 2, LaserLine.coord 3 4]).cp = [(1, 2), (3, 4)] ∧
    (import_laser_format
        [LaserLine.coord 1 2, LaserLine.coord 3 4, LaserLine.stop] 0).elements = [] := by
  decide

/-! ## C5: CSV import and malformed cells -/

theorem goodField_coerce {f : CsvField} (h : goodField f = true) :
    ∃ n, coerceField f = some n := by
  cases f with
  | missing => exact ⟨0, rfl⟩
  | num n => exact ⟨n, rfl⟩
  | bad => simp [goodField] at h

theorem csvRowStep_no_abort {a : ImportAcc} {row : CsvRow} (h : goodRow row = true) :
    (csvRowStep a row).2 = false := by
  have hparts : goodField row.x = true ∧ goodField row.y = true ∧
      goodField row.r = true ∧ goodField row.g = true ∧
      goodField row.b = true ∧ goodField row.radius = true := by
    simpa [goodRow, Bool.and_eq_true, and_assoc] using h
  obtain ⟨hx, hy, hr, hg, hb, hrad⟩ := hparts
  obtain ⟨x, hx'⟩ := goodField_coerce hx
  obtain ⟨y, hy'⟩ := goodField_coerce hy
  obtain ⟨rc, hr'⟩ := goodField_coerce hr
  obtain ⟨gc, hg'⟩ := goodField_coerce hg
  obtain ⟨bc, hb'⟩ := goodField_coerce hb
  obtain ⟨rr, hrad'⟩ := goodField_coerce hrad
  simp only [csvRowStep, hx', hy', hr', hg', hb', hrad']
  split_ifs <;> rfl

theorem csvLoop_no_abort : ∀ (rows : List CsvRow) (a : ImportAcc),
    rows.all goodRow = true → (csvLoop rows a).2 = false := by
  intro rows
  induction rows with
  | nil => intro a _; rfl
  | cons row rest ih =>
    intro a h
    rw [List.all_cons, Bool.and_eq_true] at h
    have h1 := csvRowStep_no_abort (a := a) h.1
    rcases hs : csvRowStep a row with ⟨a1, flag⟩
    rw [hs] at h1
    subst h1
    simp only [csvLoop, hs]
    exact ih a1 h.2

/-- C5 (amended): the CSV import never aborts provided no present cell is
non-numeric; missing x, y, r, g, b (and radius) cells are defaulted to 0 by
the row.get fallback and processing continues.  (A present non-numeric cell,
by contrast, raises out of the unprotected row loop: see the
counterexample.) -/
theorem c5_csv_lenient_when_numeric (rows : List CsvRow) (nid : Nat)
    (h : rows.all goodRow = true) : (open_csv rows nid).2 = false := by
  unfold open_csv
  rcases hl : csvLoop rows (freshAcc nid) with ⟨a, flag⟩
  have hf := csvLoop_no_abort rows (freshAcc nid) h
  rw [hl] at hf
  subst hf
  rfl

/-- Witness for C5 (amended): rows with every cell missing import without
aborting. -/
theorem c5_csv_lenient_when_numeric_witness :
    (open_csv
      [⟨none, CsvField.missing, CsvField.missing, CsvField.missing,
        CsvField.missing, CsvField.missing, CsvField.missing⟩,
       ⟨some "circle", CsvField.num 5, CsvField.num 6, CsvField.num 7,
        CsvField.missing, CsvField.missing, CsvField.missing⟩] 0).2 = false :=
  c5_csv_lenient_when_numeric _ 0 (by decide)

/-- Counterexample to C5 as stated: a row whose x cell is non-numeric does
not default to 0 and is not skipped; the coercion raises and the whole import
aborts (the open_csv row loop has no per-row exception handling). -/
theorem c5_nonnumeric_aborts_counterexample :
    (open_csv [⟨some "polyline", CsvField.bad, CsvField.missing, CsvField.missing,
        CsvField.missing, CsvField.missing, CsvField.missing⟩] 0).2 = true := by
  decide

/-! ## C8: table-driven in-place edits -/

/-- C8: mutate_point and mutate_radius store the clamped value, never the raw
one — each coordinate is clamped into the interval from 0 to grid_size and
the radius to at least 0 — they leave both history stacks untouched (no entry
pushed, redo not cleared), and they leave every other element, and every
other field of the edited element, unchanged. -/
theorem c8_table_edit_clamping (s : SceneTab) (i k : Nat) (x y v : Int) :
    ((mutate_point s i k x y).um = s.um) ∧
    ((mutate_radius s i v).um = s.um) ∧
    (∀ j, j ≠ i → (mutate_point s i k x y).elements[j]? = s.elements[j]?) ∧
    (∀ j, j ≠ i → (mutate_radius s i v).elements[j]? = s.elements[j]?) ∧
    (∀ el, s.elements[i]? = some el → el.kind = "polyline" → k < el.points.length →
      (mutate_point s i k x y).elements[i]? =
        some { el with points :=
                 el.points.set k (clampGrid s.grid_size x, clampGrid s.grid_size y) }) ∧
    (∀ el, s.elements[i]? = some el → el.kind = "circle" → k = 0 →
      (mutate_point s i k x y).elements[i]? =
        some { el with points :=
                 el.points.set 0 (clampGrid s.grid_size x, clampGrid s.grid_size y) }) ∧
    (∀ el, s.elements[i]? = some el → el.kind = "circle" →
      (mutate_radius s i v).elements[i]? = some { el with radius := max 0 v }) ∧
    (0 ≤ s.grid_size →
      0 ≤ clampGrid s.grid_size x ∧ clampGrid s.grid_size x ≤ s.grid_size ∧
      0 ≤ clampGrid s.grid_size y ∧ clampGrid s.grid_size y ≤ s.grid_size) ∧
    (0 ≤ max 0 v) := by
  refine ⟨?_, ?_, ?_, ?_, ?_, ?_, ?_, ?_, ?_⟩
  · cases h : s.elements[i]? with
    | none => simp [mutate_point, h]
    | some el =>
      simp only [mutate_point, h]
      split_ifs <;> rfl
  · cases h : s.elements[i]? with
    | none => simp [mutate_radius, h]
    | some el =>
      simp only [mutate_radius, h]
      split_ifs <;> rfl
  · intro j hj
    cases h : s.elements[i]? with
    | none => simp [mutate_point, h]
    | some el =>
      simp only [mutate_point, h]
      split_ifs <;> first | rfl | exact List.getElem?_set_ne (Ne.symm hj)
  · intro j hj
    cases h : s.elements[i]? with
    | none => simp [mutate_radius, h]
    | some el =>
      simp only [mutate_radius, h]
      split_ifs <;> first | rfl | exact List.getElem?_set_ne (Ne.symm hj)
  · intro el hel hkind hk
    have hi : i < s.elements.length := (List.getElem?_eq_some.mp hel).1
    simp only [mutate_point, hel]
    rw [if_pos hkind, if_pos hk]
    exact List.getElem?_set_eq_of_lt _ hi
  · intro el hel hkind hk
    have hi : i < s.elements.length := (List.getElem?_eq_some.mp hel).1
    subst hk
    simp only [mutate_point, hel]
    rw [if_neg (by rw [hkind]; decide), if_pos hkind, if_pos trivial]
    exact List.getElem?_set_eq_of_lt _ hi
  · intro el hel hkind
    have hi : i < s.elements.length := (List.getElem?_eq_some.mp hel).1
    simp only [mutate_radius, hel]
    rw [if_pos hkind]
    exact List.getElem?_set_eq_of_lt _ hi
  · intro hg
    unfold clampGrid
    omega
  · exact le_max_left 0 v

/-- Witness for C8: clamping an out-of-range edit of a two-point polyline on
a 255 grid stores (255, 0), and a radius edit of -7 stores 0. -/
theorem c8_table_edit_clamping_witness :
    (mutate_point ⟨255, (255, 0, 0), [], none,
        [⟨0, "polyline", [(5, 5), (6, 6)], (255, 0, 0), 0⟩], ⟨[], []⟩⟩
        0 0 999 (-3)).elements[0]? =
      some ⟨0, "polyline", [(255, 0), (6, 6)], (255, 0, 0), 0⟩ ∧
    (mutate_radius ⟨255, (255, 0, 0), [], none,
        [⟨1, "circle", [(5, 5)], (0, 0, 255), 4⟩], ⟨[], []⟩⟩
        0 (-7)).elements[0]? =
      some ⟨1, "circle", [(5, 5)], (0, 0, 255), 0⟩ := by
  constructor
  · have h := (c8_table_edit_clamping ⟨255, (255, 0, 0), [], none,
      [⟨0, "polyline", [(5, 5), (6, 6)], (255, 0, 0), 0⟩], ⟨[], []⟩⟩ 0 0 999 (-3) 0).2.2.2.2.1
      ⟨0, "polyline", [(5, 5), (6, 6)], (255, 0, 0), 0⟩ rfl rfl (by decide)
    rw [h]
    decide
  · have h := (c8_table_edit_clamping ⟨255, (255, 0, 0), [], none,
      [⟨1, "circle", [(5, 5)], (0, 0, 255), 4⟩], ⟨[], []⟩⟩ 0 0 0 0 (-7)).2.2.2.2.2.2.1
      ⟨1, "circle", [(5, 5)], (0, 0, 255), 4⟩ rfl rfl
    rw [h]
    decide

/-! ## C1: laser-format round trip for polyline-only documents -/

theorem laser_color_step (a : ImportAcc) (k : Int) (hcp : a.cp = []) :
    laserStep a (LaserLine.color (some k)) = { a with cc := some (code_to_color k) } := by
  simp [laserStep, hcp]

theorem laser_stop_step (a : ImportAcc) (c : RGB) (hcp : a.cp ≠ []) (hcc : a.cc = some c) :
    laserStep a LaserLine.stop =
      ⟨a.elements ++ [⟨a.nid, "polyline", a.cp, c, 0⟩],
       push_add a.um ⟨a.nid, "polyline", a.cp, c, 0⟩, some c, [], a.nid + 1⟩ := by
  simp [laserStep, flush_poly, colorOf, hcp, hcc]

theorem laser_coords_fold (pts : List Pt) (a : ImportAcc) :
    List.foldl laserStep a (pts.map (fun p => LaserLine.coord p.1 p.2)) =
      { a with cp := a.cp ++ pts } := by
  induction pts generalizing a with
  | nil => simp
  | cons p rest ih =>
    simp only [List.map_cons, List.foldl_cons, laserStep]
    rw [ih]
    simp

theorem laser_export_element_fold (sampler : Pt → Int → Int → Nat → Pt)
    (steps g : Int) (el : SceneElement) (a : ImportAcc)
    (hk : el.kind = "polyline") (hp : el.points ≠ []) (hcp : a.cp = []) :
    List.foldl laserStep a (export_element sampler steps false g el) =
      ⟨a.elements ++ [⟨a.nid, "polyline", el.points,
          code_to_color (color_to_code el.color), 0⟩],
       push_add a.um ⟨a.nid, "polyline", el.points,
          code_to_color (color_to_code el.color), 0⟩,
       some (code_to_color (color_to_code el.color)), [], a.nid + 1⟩ := by
  have hemit : export_element sampler steps false g el =
      LaserLine.color (some (color_to_code el.color)) ::
        (el.points.map (fun p => LaserLine.coord p.1 p.2) ++ [LaserLine.stop]) := by
    simp [export_element, hk]
  rw [hemit, List.foldl_cons, laser_color_step a (color_to_code el.color) hcp,
      List.foldl_append, laser_coords_fold]
  simp only [hcp, List.nil_append, List.foldl_cons, List.foldl_nil]
  exact laser_stop_step _ _ hp rfl

theorem laser_export_fold (sampler : Pt → Int → Int → Nat → Pt) (steps g : Int) :
    ∀ (els : List SceneElement) (a : ImportAcc),
    (∀ el ∈ els, el.kind = "polyline" ∧ el.points ≠ []) → a.cp = [] →
    (List.foldl laserStep a (export_laser_format sampler steps false g els)).elements =
        a.elements ++ buildImported a.nid els ∧
    (List.foldl laserStep a (export_laser_format sampler steps false g els)).cp = [] ∧
    (List.foldl laserStep a (export_laser_format sampler steps false g els)).nid =
        a.nid + els.length := by
  intro els
  induction els with
  | nil =>
    intro a h hcp
    simp [export_laser_format, buildImported, hcp]
  | cons el rest ih =>
    intro a h hcp
    have h1 := h el (List.mem_cons_self el rest)
    have hrest : ∀ e ∈ rest, e.kind = "polyline" ∧ e.points ≠ [] :=
      fun e he => h e (List.mem_cons_of_mem _ he)
    simp only [export_laser_format]
    rw [List.foldl_append, laser_export_element_fold sampler steps g el a h1.1 h1.2 hcp]
    obtain ⟨e1, e2, e3⟩ := ih ⟨a.elements ++ [⟨a.nid, "polyline", el.points,
        code_to_color (color_to_code el.color), 0⟩],
      push_add a.um ⟨a.nid, "polyline", el.points,
        code_to_color (color_to_code el.color), 0⟩,
      some (code_to_color (color_to_code el.color)), [], a.nid + 1⟩ hrest rfl
    refine ⟨?_, e2, ?_⟩
    · rw [e1]
      simp [buildImported, List.append_assoc]
    · rw [e3]
      simp [List.length_cons]
      omega

theorem buildImported_forall2 : ∀ (n : Nat) (els : List SceneElement),
    List.Forall₂ (fun a b => a.points = b.points ∧
      color_to_code a.color = color_to_code b.color) (buildImported n els) els := by
  intro n els
  induction els generalizing n with
  | nil => exact List.Forall₂.nil
  | cons el rest ih =>
    exact List.Forall₂.cons ⟨rfl, code_roundtrip el.color⟩ (ih (n + 1))

/-- C1: exporting a document whose elements are all polylines with at least
two points (normalize off) and importing the produced stream yields an
element list of the same length whose elements, in order, carry the same
point sequences and colors with the same 3-way code. -/
theorem c1_laser_polyline_roundtrip (sampler : Pt → Int → Int → Nat → Pt)
    (steps g : Int) (nid : Nat) (els : List SceneElement)
    (h : ∀ el ∈ els, el.kind = "polyline" ∧ 2 ≤ el.points.length) :
    (import_laser_format (export_laser_format sampler steps false g els) nid).elements.length
        = els.length ∧
    List.Forall₂ (fun a b => a.points = b.points ∧
        color_to_code a.color = color_to_code b.color)
      (import_laser_format (export_laser_format sampler steps false g els) nid).elements
      els := by
  have h' : ∀ el ∈ els, el.kind = "polyline" ∧ el.points ≠ [] := by
    intro el he
    refine ⟨(h el he).1, ?_⟩
    have h2 := (h el he).2
    intro hnil
    rw [hnil] at h2
    simp at h2
  obtain ⟨e1, e2, e3⟩ := laser_export_fold sampler steps g els (freshAcc nid) h' rfl
  have hfin : import_laser_format (export_laser_format sampler steps false g els) nid =
      List.foldl laserStep (freshAcc nid) (export_laser_format sampler steps false g els) := by
    unfold import_laser_format laserFinish
    rw [if_neg]
    simp [e2]
  rw [hfin, e1]
  have hF := buildImported_forall2 nid els
  constructor
  · simpa [freshAcc] using hF.length_eq
  · simpa [freshAcc] using hF

/-- Witness for C1 on a two-element polyline document. -/
theorem c1_laser_polyline_roundtrip_witness :
    (import_laser_format (export_laser_format (fun _ _ _ _ => (0, 0)) 8 false 255
        [⟨0, "polyline", [(0, 0), (10, 0), (10, 10)], (255, 0, 0), 0⟩,
         ⟨1, "polyline", [(7, 7), (8, 9)], (10, 240, 20), 0⟩]) 0).elements.length = 2 ∧
    List.Forall₂ (fun (a b : SceneElement) => a.points = b.points ∧
        color_to_code a.color = color_to_code b.color)
      (import_laser_format (export_laser_format (fun _ _ _ _ => (0, 0)) 8 false 255
        [⟨0, "polyline", [(0, 0), (10, 0), (10, 10)], (255, 0, 0), 0⟩,
         ⟨1, "polyline", [(7, 7), (8, 9)], (10, 240, 20), 0⟩]) 0).elements
      ([⟨0, "polyline", [(0, 0), (10, 0), (10, 10)], (255, 0, 0), 0⟩,
        ⟨1, "polyline", [(7, 7), (8, 9)], (10, 240, 20), 0⟩] : List SceneElement) :=
  c1_laser_polyline_roundtrip (fun _ _ _ _ => (0, 0)) 8 255 0
    [⟨0, "polyline", [(0, 0), (10, 0), (10, 10)], (255, 0, 0), 0⟩,
     ⟨1, "polyline", [(7, 7), (8, 9)], (10, 240, 20), 0⟩] (by decide)

/-! ## C2: the undo and redo inverse law -/

theorem runPure_snoc (E : List SceneElement) (init : List EditAct) (a : EditAct) :
    runPure E (init ++ [a]) = pureStep (runPure E init) a := by
  simp [runPure, List.foldl_append]

theorem runOK_append (l1 : List EditAct) : ∀ (E : List SceneElement) (l2 : List EditAct),
    runOK E (l1 ++ l2) = (runOK E l1 && runOK (runPure E l1) l2) := by
  induction l1 with
  | nil => intro E l2; simp [runOK, runPure]
  | cons a rest ih =>
    intro E l2
    simp only [List.cons_append, runOK, List.append_eq]
    rw [ih (pureStep E a) l2, ← Bool.and_assoc]
    rfl

theorem pyIn_of_mem_data {el : SceneElement} {l : List SceneElement}
    (h : dataOf el ∈ l.map dataOf) : pyIn el l = true := by
  rw [pyIn_iff]
  obtain ⟨e, he, hd⟩ := List.mem_map.mp h
  exact ⟨e, he, hd⟩

theorem undo_add_step (s : SceneTab) (el : SceneElement)
    (R : List (HistKind × SceneElement))
    (hstack : s.um.undoStack = (HistKind.add, el) :: R)
    (hin : pyIn el s.elements = true) :
    tab_undo s = { s with um := ⟨R, (HistKind.add, el) :: s.um.redoStack⟩,
                          elements := pyRemove el s.elements } := by
  simp [tab_undo, um_undo, hstack, hin]

theorem undo_remove_step (s : SceneTab) (el : SceneElement)
    (R : List (HistKind × SceneElement))
    (hstack : s.um.undoStack = (HistKind.remove, el) :: R) :
    tab_undo s = { s with um := ⟨R, (HistKind.remove, el) :: s.um.redoStack⟩,
                          elements := s.elements ++ [el] } := by
  simp [tab_undo, um_undo, hstack]

theorem redo_add_step (s : SceneTab) (el : SceneElement)
    (R : List (HistKind × SceneElement))
    (hstack : s.um.redoStack = (HistKind.add, el) :: R) :
    tab_redo s = { s with um := ⟨(HistKind.add, el) :: s.um.undoStack, R⟩,
                          elements := s.elements ++ [el] } := by
  simp [tab_redo, um_redo, hstack]

theorem redo_remove_step (s : SceneTab) (el : SceneElement)
    (R : List (HistKind × SceneElement))
    (hstack : s.um.redoStack = (HistKind.remove, el) :: R)
    (hin : pyIn el s.elements = true) :
    tab_redo s = { s with um := ⟨(HistKind.remove, el) :: s.um.undoStack, R⟩,
                          elements := pyRemove el s.elements } := by
  simp [tab_redo, um_redo, hstack, hin]

theorem applyActs_spec : ∀ (acts : List EditAct) (s : SceneTab), seqOK s acts = true →
    (applyActs s acts).elements = runPure s.elements acts ∧
    (applyActs s acts).um.undoStack = (acts.map entryOf).reverse ++ s.um.undoStack ∧
    (s.um.redoStack = [] → (applyActs s acts).um.redoStack = []) ∧
    runOK s.elements acts = true := by
  intro acts
  induction acts with
  | nil =>
    intro s _
    exact ⟨rfl, by simp [applyActs, runPure], fun hr => hr, rfl⟩
  | cons a rest ih =>
    intro s h
    rw [seqOK, Bool.and_eq_true] at h
    obtain ⟨ha, hrest⟩ := h
    obtain ⟨i1, i2, i3, i4⟩ := ih (applyAct s a) hrest
    have happ : applyActs s (a :: rest) = applyActs (applyAct s a) rest := rfl
    cases a with
    | poly fresh pts c =>
      have hlen : 2 ≤ pts.length := by simpa [actOK] using ha
      have k1 : (applyAct s (EditAct.poly fresh pts c)).elements =
          s.elements ++ [⟨fresh, "polyline", pts, c, 0⟩] := by
        simp [applyAct, commit_polyline, hlen]
      have k2 : (applyAct s (EditAct.poly fresh pts c)).um.undoStack =
          (HistKind.add, (⟨fresh, "polyline", pts, c, 0⟩ : SceneElement)) ::
            s.um.undoStack := by
        simp [applyAct, commit_polyline, hlen, push_add]
      have k3 : (applyAct s (EditAct.poly fresh pts c)).um.redoStack = [] := by
        simp [applyAct, commit_polyline, hlen, push_add]
      refine ⟨?_, ?_, ?_, ?_⟩
      · rw [happ, i1, k1]
        rfl
      · rw [happ, i2, k2]
        simp [entryOf, elOf, List.append_assoc]
      · intro _
        exact i3 k3
      · simp only [runOK, pureStep, elOf, Bool.true_and]
        rw [← k1]
        exact i4
    | circle fresh cen r c =>
      have k1 : (applyAct s (EditAct.circle fresh cen r c)).elements =
          s.elements ++ [⟨fresh, "circle", [cen], c, r⟩] := by
        simp [applyAct, commit_circle_from_center]
      have k2 : (applyAct s (EditAct.circle fresh cen r c)).um.undoStack =
          (HistKind.add, (⟨fresh, "circle", [cen], c, r⟩ : SceneElement)) ::
            s.um.undoStack := by
        simp [applyAct, commit_circle_from_center, push_add]
      have k3 : (applyAct s (EditAct.circle fresh cen r c)).um.redoStack = [] := by
        simp [applyAct, commit_circle_from_center, push_add]
      refine ⟨?_, ?_, ?_, ?_⟩
      · rw [happ, i1, k1]
        rfl
      · rw [happ, i2, k2]
        simp [entryOf, elOf, List.append_assoc]
      · intro _
        exact i3 k3
      · simp only [runOK, pureStep, elOf, Bool.true_and]
        rw [← k1]
        exact i4
    | removeEl el =>
      have hin : pyIn el s.elements = true := by simpa [actOK] using ha
      have k1 : (applyAct s (EditAct.removeEl el)).elements =
          pyRemove el s.elements := by
        simp [applyAct, remove_element, hin]
      have k2 : (applyAct s (EditAct.removeEl el)).um.undoStack =
          (HistKind.remove, el) :: s.um.undoStack := by
        simp [applyAct, remove_element, hin, push_remove]
      have k3 : (applyAct s (EditAct.removeEl el)).um.redoStack = [] := by
        simp [applyAct, remove_element, hin, push_remove]
      refine ⟨?_, ?_, ?_, ?_⟩
      · rw [happ, i1, k1]
        rfl
      · rw [happ, i2, k2]
        simp [entryOf, List.append_assoc]
      · intro _
        exact i3 k3
      · simp only [runOK, pureStep]
        rw [Bool.and_eq_true]
        refine ⟨hin, ?_⟩
        rw [← k1]
        exact i4

theorem undo_drain : ∀ (acts : List EditAct) (E : List SceneElement) (s : SceneTab),
    runOK E acts = true →
    ((s.elements.map dataOf).Perm ((runPure E acts).map dataOf)) →
    s.um.undoStack = (acts.map entryOf).reverse →
    (iterUndo acts.length s).um.undoStack = [] ∧
    (iterUndo acts.length s).um.redoStack = acts.map entryOf ++ s.um.redoStack ∧
    ((iterUndo acts.length s).elements.map dataOf).Perm (E.map dataOf) := by
  intro acts
  induction acts using List.reverseRecOn with
  | nil =>
    intro E s hok hperm hstack
    exact ⟨by simpa using hstack, by simp [iterUndo], by simpa [runPure] using hperm⟩
  | append_singleton init a ih =>
    intro E s hok hperm hstack
    have hsplit : runOK E init = true ∧ runOK (runPure E init) [a] = true := by
      rw [← Bool.and_eq_true, ← runOK_append]
      exact hok
    have hok1 := hsplit.1
    have hok2 := hsplit.2
    have hlen : (init ++ [a]).length = init.length + 1 := by simp
    rw [hlen]
    simp only [iterUndo]
    have hstack' : s.um.undoStack = entryOf a :: (init.map entryOf).reverse := by
      simpa [List.map_append, List.reverse_append] using hstack
    have hrunP : runPure E (init ++ [a]) = pureStep (runPure E init) a :=
      runPure_snoc E init a
    cases a with
    | removeEl el =>
      have hstep := undo_remove_step s el ((init.map entryOf).reverse)
        (by simpa [entryOf] using hstack')
      have hin : pyIn el (runPure E init) = true := by
        simpa [runOK, pureStep] using hok2
      have hperm' : ((tab_undo s).elements.map dataOf).Perm
          ((runPure E init).map dataOf) := by
        rw [hstep]
        have p1 : ((s.elements ++ [el]).map dataOf).Perm
            (dataOf el :: s.elements.map dataOf) := by
          rw [List.map_append]
          exact List.perm_append_singleton (dataOf el) (s.elements.map dataOf)
        have p2 : (s.elements.map dataOf).Perm
            ((pyRemove el (runPure E init)).map dataOf) := by
          simpa [hrunP, pureStep] using hperm
        have p3 := pyRemove_perm hin
        exact p1.trans ((p2.cons (dataOf el)).trans p3.symm)
      obtain ⟨r1, r2, r3⟩ := ih E (tab_undo s) hok1 hperm' (by rw [hstep])
      refine ⟨r1, ?_, r3⟩
      rw [r2, hstep]
      simp [entryOf, List.map_append, List.append_assoc]
    | poly fresh pts c =>
      have hst2 : s.um.undoStack =
          (HistKind.add, (⟨fresh, "polyline", pts, c, 0⟩ : SceneElement)) ::
            (init.map entryOf).reverse := by
        simpa [entryOf, elOf] using hstack'
      have hpure : runPure E (init ++ [EditAct.poly fresh pts c]) =
          runPure E init ++ [(⟨fresh, "polyline", pts, c, 0⟩ : SceneElement)] := by
        rw [hrunP]
        rfl
      have hmem : dataOf (⟨fresh, "polyline", pts, c, 0⟩ : SceneElement) ∈
          s.elements.map dataOf := by
        apply hperm.mem_iff.mpr
        rw [hpure]
        simp [List.map_append]
      have hin := pyIn_of_mem_data hmem
      have hstep := undo_add_step s ⟨fresh, "polyline", pts, c, 0⟩
        ((init.map entryOf).reverse) hst2 hin
      have hperm' : ((tab_undo s).elements.map dataOf).Perm
          ((runPure E init).map dataOf) := by
        rw [hstep]
        have p3 := pyRemove_perm hin
        have p4 : (s.elements.map dataOf).Perm
            (dataOf (⟨fresh, "polyline", pts, c, 0⟩ : SceneElement) ::
              (runPure E init).map dataOf) := by
          refine hperm.trans ?_
          rw [hpure]
          rw [List.map_append]
          exact List.perm_append_singleton
            (dataOf (⟨fresh, "polyline", pts, c, 0⟩ : SceneElement))
            ((runPure E init).map dataOf)
        exact (p3.symm.trans p4).cons_inv
      obtain ⟨r1, r2, r3⟩ := ih E (tab_undo s) hok1 hperm' (by rw [hstep])
      refine ⟨r1, ?_, r3⟩
      rw [r2, hstep]
      simp [entryOf, elOf, List.map_append, List.append_assoc]
    | circle fresh cen r c =>
      have hst2 : s.um.undoStack =
          (HistKind.add, (⟨fresh, "circle", [cen], c, r⟩ : SceneElement)) ::
            (init.map entryOf).reverse := by
        simpa [entryOf, elOf] using hstack'
      have hpure : runPure E (init ++ [EditAct.circle fresh cen r c]) =
          runPure E init ++ [(⟨fresh, "circle", [cen], c, r⟩ : SceneElement)] := by
        rw [hrunP]
        rfl
      have hmem : dataOf (⟨fresh, "circle", [cen], c, r⟩ : SceneElement) ∈
          s.elements.map dataOf := by
        apply hperm.mem_iff.mpr
        rw [hpure]
        simp [List.map_append]
      have hin := pyIn_of_mem_data hmem
      have hstep := undo_add_step s ⟨fresh, "circle", [cen], c, r⟩
        ((init.map entryOf).reverse) hst2 hin
      have hperm' : ((tab_undo s).elements.map dataOf).Perm
          ((runPure E init).map dataOf) := by
        rw [hstep]
        have p3 := pyRemove_perm hin
        have p4 : (s.elements.map dataOf).Perm
            (dataOf (⟨fresh, "circle", [cen], c, r⟩ : SceneElement) ::
              (runPure E init).map dataOf) := by
          refine hperm.trans ?_
          rw [hpure]
          rw [List.map_append]
          exact List.perm_append_singleton
            (dataOf (⟨fresh, "circle", [cen], c, r⟩ : SceneElement))
            ((runPure E init).map dataOf)
        exact (p3.symm.trans p4).cons_inv
      obtain ⟨r1, r2, r3⟩ := ih E (tab_undo s) hok1 hperm' (by rw [hstep])
      refine ⟨r1, ?_, r3⟩
      rw [r2, hstep]
      simp [entryOf, elOf, List.map_append, List.append_assoc]

theorem redo_replay : ∀ (acts : List EditAct) (E : List SceneElement)
    (R : List (HistKind × SceneElement)) (s : SceneTab),
    runOK E acts = true →
    s.elements = E →
    s.um.redoStack = acts.map entryOf ++ R →
    (iterRedo acts.length s).elements = runPure E acts ∧
    (iterRedo acts.length s).um.redoStack = R ∧
    (iterRedo acts.length s).um.undoStack =
      (acts.map entryOf).reverse ++ s.um.undoStack := by
  intro acts
  induction acts with
  | nil =>
    intro E R s hok hel hred
    exact ⟨hel, by simpa using hred, by simp [iterRedo]⟩
  | cons a rest ih =>
    intro E R s hok hel hred
    simp only [List.length_cons, iterRedo]
    cases a with
    | removeEl el =>
      have hok2 : pyIn el E = true ∧ runOK (pyRemove el E) rest = true := by
        simpa [runOK, pureStep, Bool.and_eq_true] using hok
      have hin := hok2.1
      have hok' := hok2.2
      have hstep := redo_remove_step s el (rest.map entryOf ++ R)
        (by simpa [entryOf] using hred) (by rw [hel]; exact hin)
      obtain ⟨r1, r2, r3⟩ := ih (pyRemove el E) R (tab_redo s) hok'
        (by rw [hstep, hel])
        (by rw [hstep])
      refine ⟨?_, r2, ?_⟩
      · rw [r1]
        rfl
      · rw [r3, hstep]
        simp [entryOf, List.append_assoc]
    | poly fresh pts c =>
      have hok' : runOK (E ++ [(⟨fresh, "polyline", pts, c, 0⟩ : SceneElement)]) rest
          = true := by
        simpa [runOK, pureStep, elOf] using hok
      have hstep := redo_add_step s ⟨fresh, "polyline", pts, c, 0⟩
        (rest.map entryOf ++ R) (by simpa [entryOf, elOf] using hred)
      obtain ⟨r1, r2, r3⟩ := ih (E ++ [⟨fresh, "polyline", pts, c, 0⟩]) R (tab_redo s)
        hok'
        (by rw [hstep, hel])
        (by rw [hstep])
      refine ⟨?_, r2, ?_⟩
      · rw [r1]
        rfl
      · rw [r3, hstep]
        simp [entryOf, elOf, List.append_assoc]
    | circle fresh cen r c =>
      have hok' : runOK (E ++ [(⟨fresh, "circle", [cen], c, r⟩ : SceneElement)]) rest
          = true := by
        simpa [runOK, pureStep, elOf] using hok
      have hstep := redo_add_step s ⟨fresh, "circle", [cen], c, r⟩
        (rest.map entryOf ++ R) (by simpa [entryOf, elOf] using hred)
      obtain ⟨r1, r2, r3⟩ := ih (E ++ [⟨fresh, "circle", [cen], c, r⟩]) R (tab_redo s)
        hok'
        (by rw [hstep, hel])
        (by rw [hstep])
      refine ⟨?_, r2, ?_⟩
      · rw [r1]
        rfl
      · rw [r3, hstep]
        simp [entryOf, elOf, List.append_assoc]

/-- C2: for any sequence of successful editing calls starting from an empty
document, undoing once per call empties the element list, and then redoing
once per call restores the element list the sequence had produced (here
exactly, element for element, which in particular restores the element
set). -/
theorem c2_undo_redo_inverse (g : Int) (acts : List EditAct)
    (h : seqOK (init_tab g) acts = true) :
    (iterUndo acts.length (applyActs (init_tab g) acts)).elements = [] ∧
    (iterRedo acts.length (iterUndo acts.length (applyActs (init_tab g) acts))).elements =
      (applyActs (init_tab g) acts).elements := by
  obtain ⟨a1, a2, a3, a4⟩ := applyActs_spec acts (init_tab g) h
  have hredo0 : (applyActs (init_tab g) acts).um.redoStack = [] := a3 rfl
  have hperm : (((applyActs (init_tab g) acts).elements.map dataOf).Perm
      ((runPure ([] : List SceneElement) acts).map dataOf)) := by
    rw [a1]
    exact List.Perm.refl _
  obtain ⟨u1, u2, u3⟩ := undo_drain acts [] (applyActs (init_tab g) acts) a4 hperm
    (by rw [a2]; simp [init_tab])
  have hempty : (iterUndo acts.length (applyActs (init_tab g) acts)).elements = [] := by
    have h0 : ((iterUndo acts.length (applyActs (init_tab g) acts)).elements.map dataOf)
        = [] := u3.eq_nil
    exact List.map_eq_nil_iff.mp h0
  refine ⟨hempty, ?_⟩
  obtain ⟨r1, r2, r3⟩ := redo_replay acts [] []
    (iterUndo acts.length (applyActs (init_tab g) acts)) a4 hempty
    (by rw [u2, hredo0])
  rw [r1]
  exact a1.symm

/-- Witness for C2: commit a polyline, commit a circle, remove the polyline,
then undo three times and redo three times. -/
theorem c2_undo_redo_inverse_witness :
    (iterUndo 3 (applyActs (init_tab 255)
        [EditAct.poly 7 [(0, 0), (2, 3)] (255, 0, 0),
         EditAct.circle 8 (5, 5) 3 (0, 0, 255),
         EditAct.removeEl ⟨9, "polyline", [(0, 0), (2, 3)], (255, 0, 0), 0⟩])).elements
      = [] ∧
    (iterRedo 3 (iterUndo 3 (applyActs (init_tab 255)
        [EditAct.poly 7 [(0, 0), (2, 3)] (255, 0, 0),
         EditAct.circle 8 (5, 5) 3 (0, 0, 255),
         EditAct.removeEl ⟨9, "polyline", [(0, 0), (2, 3)], (255, 0, 0), 0⟩]))).elements =
      (applyActs (init_tab 255)
        [EditAct.poly 7 [(0, 0), (2, 3)] (255, 0, 0),
         EditAct.circle 8 (5, 5) 3 (0, 0, 255),
         EditAct.removeEl ⟨9, "polyline", [(0, 0), (2, 3)], (255, 0, 0), 0⟩]).elements :=
  c2_undo_redo_inverse 255
    [EditAct.poly 7 [(0, 0), (2, 3)] (255, 0, 0),
     EditAct.circle 8 (5, 5) 3 (0, 0, 255),
     EditAct.removeEl ⟨9, "polyline", [(0, 0), (2, 3)], (255, 0, 0), 0⟩] (by decide)

/-! ## C10: every circle element stores exactly its center -/

theorem entriesOK_nil : EntriesOK [] :=
  fun x hx => absurd hx (List.not_mem_nil x)

theorem entriesOK_cons {e : HistKind × SceneElement}
    {l : List (HistKind × SceneElement)} (he : CircleOK e.2) (hl : EntriesOK l) :
    EntriesOK (e :: l) := by
  intro x hx
  rcases List.mem_cons.mp hx with h1 | h1
  · rw [h1]
    exact he
  · exact hl x h1

theorem circleOK_of_dataOf {a b : SceneElement} (h : dataOf a = dataOf b)
    (ha : CircleOK a) : CircleOK b := by
  obtain ⟨hk, hp, _, _⟩ := dataOf_fields h
  intro hcb
  rw [← hp]
  exact ha (by rw [hk, hcb])

theorem pyIn_circleOK {el : SceneElement} {l : List SceneElement}
    (hin : pyIn el l = true) (h : ∀ e ∈ l, CircleOK e) : CircleOK el := by
  rw [pyIn_iff] at hin
  obtain ⟨e, he, hd⟩ := hin
  exact circleOK_of_dataOf hd (h e he)

theorem elements_append_OK {l : List SceneElement} {el : SceneElement}
    (h : ∀ e ∈ l, CircleOK e) (hel : CircleOK el) : ∀ e ∈ l ++ [el], CircleOK e := by
  intro e he
  rcases List.mem_append.mp he with h1 | h1
  · exact h e h1
  · rw [List.mem_singleton.mp h1]
    exact hel

theorem polyline_circleOK (eid : Nat) (pts : List Pt) (c : RGB) :
    CircleOK ⟨eid, "polyline", pts, c, 0⟩ := by
  intro hk
  simp [CircleOK] at hk

theorem circle_el_OK (eid : Nat) (cen : Pt) (c : RGB) (r : Int) :
    CircleOK ⟨eid, "circle", [cen], c, r⟩ :=
  fun _ => rfl

theorem tabOK_commit_polyline {s : SceneTab} (h : TabOK s) (fresh : Nat) :
    TabOK (commit_polyline s fresh).1 := by
  obtain ⟨h1, h2, h3⟩ := h
  unfold commit_polyline
  split_ifs with hc
  · exact ⟨elements_append_OK h1 (polyline_circleOK _ _ _),
           entriesOK_cons (polyline_circleOK _ _ _) h2, entriesOK_nil⟩
  · exact ⟨h1, h2, h3⟩

theorem tabOK_commit_circle {s : SceneTab} (h : TabOK s) (fresh : Nat)
    (cen : Pt) (r : Int) : TabOK (commit_circle_from_center s fresh cen r).1 := by
  obtain ⟨h1, h2, h3⟩ := h
  exact ⟨elements_append_OK h1 (circle_el_OK _ _ _ _),
         entriesOK_cons (circle_el_OK _ _ _ _) h2, entriesOK_nil⟩

theorem tabOK_remove {s : SceneTab} (h : TabOK s) (el : SceneElement) :
    TabOK (remove_element s el) := by
  obtain ⟨h1, h2, h3⟩ := h
  unfold remove_element
  split_ifs with hin
  · exact ⟨fun e he => h1 e (pyRemove_mem he),
           entriesOK_cons (pyIn_circleOK hin h1) h2, entriesOK_nil⟩
  · exact ⟨h1, h2, h3⟩

theorem tabOK_tab_undo {s : SceneTab} (h : TabOK s) : TabOK (tab_undo s) := by
  obtain ⟨h1, h2, h3⟩ := h
  rcases hu : s.um.undoStack with _ | ⟨⟨k, el⟩, rest⟩
  · have heq : tab_undo s = s := by
      simp [tab_undo, um_undo, hu]
    rw [heq]
    exact ⟨h1, h2, h3⟩
  · have hCel : CircleOK el := h2 (k, el) (by rw [hu]; exact List.mem_cons_self _ _)
    have hrest : EntriesOK rest :=
      fun x hx => h2 x (by rw [hu]; exact List.mem_cons_of_mem _ hx)
    cases k with
    | add =>
      have hstep : tab_undo s = { s with
          um := ⟨rest, (HistKind.add, el) :: s.um.redoStack⟩,
          elements := if pyIn el s.elements then pyRemove el s.elements
                      else s.elements } := by
        simp [tab_undo, um_undo, hu]
      rw [hstep]
      refine ⟨?_, hrest, entriesOK_cons hCel h3⟩
      intro e he
      split_ifs at he with hif
      · exact h1 e (pyRemove_mem he)
      · exact h1 e he
    | remove =>
      have hstep : tab_undo s = { s with
          um := ⟨rest, (HistKind.remove, el) :: s.um.redoStack⟩,
          elements := s.elements ++ [el] } := by
        simp [tab_undo, um_undo, hu]
      rw [hstep]
      exact ⟨elements_append_OK h1 hCel, hrest, entriesOK_cons hCel h3⟩

theorem tabOK_tab_redo {s : SceneTab} (h : TabOK s) : TabOK (tab_redo s) := by
  obtain ⟨h1, h2, h3⟩ := h
  rcases hu : s.um.redoStack with _ | ⟨⟨k, el⟩, rest⟩
  · have heq : tab_redo s = s := by
      simp [tab_redo, um_redo, hu]
    rw [heq]
    exact ⟨h1, h2, h3⟩
  · have hCel : CircleOK el := h3 (k, el) (by rw [hu]; exact List.mem_cons_self _ _)
    have hrest : EntriesOK rest :=
      fun x hx => h3 x (by rw [hu]; exact List.mem_cons_of_mem _ hx)
    cases k with
    | add =>
      have hstep : tab_redo s = { s with
          um := ⟨(HistKind.add, el) :: s.um.undoStack, rest⟩,
          elements := s.elements ++ [el] } := by
        simp [tab_redo, um_redo, hu]
      rw [hstep]
      exact ⟨elements_append_OK h1 hCel, entriesOK_cons hCel h2, hrest⟩
    | remove =>
      have hstep : tab_redo s = { s with
          um := ⟨(HistKind.remove, el) :: s.um.undoStack, rest⟩,
          elements := if pyIn el s.elements then pyRemove el s.elements
                      else s.elements } := by
        simp [tab_redo, um_redo, hu]
      rw [hstep]
      refine ⟨?_, entriesOK_cons hCel h2, hrest⟩
      intro e he
      split_ifs at he with hif
      · exact h1 e (pyRemove_mem he)
      · exact h1 e he

theorem tabOK_mutate_point {s : SceneTab} (h : TabOK s) (i k : Nat) (x y : Int) :
    TabOK (mutate_point s i k x y) := by
  obtain ⟨h1, h2, h3⟩ := h
  cases hel : s.elements[i]? with
  | none =>
    have heq : mutate_point s i k x y = s := by simp [mutate_point, hel]
    rw [heq]
    exact ⟨h1, h2, h3⟩
  | some el =>
    have hmem : el ∈ s.elements := List.getElem?_mem hel
    simp only [mutate_point, hel]
    split_ifs with hk1 hk2 hk3 hk4
    · refine ⟨?_, h2, h3⟩
      intro e he
      rcases List.mem_or_eq_of_mem_set he with h5 | h5
      · exact h1 e h5
      · rw [h5]
        intro hc
        exact absurd (hk1 ▸ hc) (by decide)
    · exact ⟨h1, h2, h3⟩
    · refine ⟨?_, h2, h3⟩
      intro e he
      rcases List.mem_or_eq_of_mem_set he with h5 | h5
      · exact h1 e h5
      · rw [h5]
        intro _
        rw [List.length_set]
        exact h1 el hmem hk3
    · exact ⟨h1, h2, h3⟩
    · exact ⟨h1, h2, h3⟩

theorem tabOK_mutate_radius {s : SceneTab} (h : TabOK s) (i : Nat) (v : Int) :
    TabOK (mutate_radius s i v) := by
  obtain ⟨h1, h2, h3⟩ := h
  cases hel : s.elements[i]? with
  | none =>
    have heq : mutate_radius s i v = s := by simp [mutate_radius, hel]
    rw [heq]
    exact ⟨h1, h2, h3⟩
  | some el =>
    have hmem : el ∈ s.elements := List.getElem?_mem hel
    simp only [mutate_radius, hel]
    split_ifs with hk1
    · refine ⟨?_, h2, h3⟩
      intro e he
      rcases List.mem_or_eq_of_mem_set he with h5 | h5
      · exact h1 e h5
      · rw [h5]
        intro _
        exact h1 el hmem hk1
    · exact ⟨h1, h2, h3⟩

theorem accOK_fresh (nid : Nat) : AccOK (freshAcc nid) :=
  ⟨fun e he => absurd he (List.not_mem_nil e), entriesOK_nil, entriesOK_nil⟩

theorem accOK_flush {a : ImportAcc} (h : AccOK a) : AccOK (flush_poly a) := by
  obtain ⟨h1, h2, h3⟩ := h
  exact ⟨elements_append_OK h1 (polyline_circleOK _ _ _),
         entriesOK_cons (polyline_circleOK _ _ _) h2, entriesOK_nil⟩

theorem accOK_laserStep {a : ImportAcc} (h : AccOK a) (ln : LaserLine) :
    AccOK (laserStep a ln) := by
  obtain ⟨h1, h2, h3⟩ := h
  cases ln with
  | blank => exact ⟨h1, h2, h3⟩
  | junk => exact ⟨h1, h2, h3⟩
  | coord x y => exact ⟨h1, h2, h3⟩
  | color arg =>
    have hA : AccOK (if a.cp ≠ [] ∧ a.cc.isSome then flush_poly a else a) := by
      split_ifs with hg
      · exact accOK_flush ⟨h1, h2, h3⟩
      · exact ⟨h1, h2, h3⟩
    obtain ⟨g1, g2, g3⟩ := hA
    exact ⟨g1, g2, g3⟩
  | stop =>
    have hA : AccOK (if a.cp ≠ [] ∧ a.cc.isSome then flush_poly a else a) := by
      split_ifs with hg
      · exact accOK_flush ⟨h1, h2, h3⟩
      · exact ⟨h1, h2, h3⟩
    obtain ⟨g1, g2, g3⟩ := hA
    exact ⟨g1, g2, g3⟩

theorem accOK_laserFinish {a : ImportAcc} (h : AccOK a) : AccOK (laserFinish a) := by
  unfold laserFinish
  split_ifs with hg
  · exact accOK_flush h
  · exact h

theorem accOK_laser_fold : ∀ (lines : List LaserLine) (a : ImportAcc), AccOK a →
    AccOK (List.foldl laserStep a lines) := by
  intro lines
  induction lines with
  | nil => intro a h; exact h
  | cons ln rest ih => intro a h; exact ih _ (accOK_laserStep h ln)

theorem accOK_append_el {a : ImportAcc} (h : AccOK a) {el : SceneElement}
    (hel : CircleOK el) (cc2 : Option RGB) (cp2 : List Pt) (nid2 : Nat) :
    AccOK ⟨a.elements ++ [el], push_add a.um el, cc2, cp2, nid2⟩ := by
  obtain ⟨h1, h2, h3⟩ := h
  exact ⟨elements_append_OK h1 hel, entriesOK_cons hel h2, entriesOK_nil⟩

theorem accOK_csvRowStep {a : ImportAcc} (h : AccOK a) (row : CsvRow) :
    AccOK (csvRowStep a row).1 := by
  obtain ⟨h1, h2, h3⟩ := h
  rcases hx : coerceField row.x with _ | x
  · simp only [csvRowStep, hx]
    exact ⟨h1, h2, h3⟩
  rcases hy : coerceField row.y with _ | y
  · simp only [csvRowStep, hx, hy]
    exact ⟨h1, h2, h3⟩
  rcases hr : coerceField row.r with _ | rc
  · simp only [csvRowStep, hx, hy, hr]
    exact ⟨h1, h2, h3⟩
  rcases hg2 : coerceField row.g with _ | gc
  · simp only [csvRowStep, hx, hy, hr, hg2]
    exact ⟨h1, h2, h3⟩
  rcases hb : coerceField row.b with _ | bc
  · simp only [csvRowStep, hx, hy, hr, hg2, hb]
    exact ⟨h1, h2, h3⟩
  by_cases hk1 : (row.kind.getD "polyline") = "polyline"
  · simp only [csvRowStep, hx, hy, hr, hg2, hb, hk1]
    simp only [reduceIte]
    split_ifs with hflush
    · exact accOK_append_el ⟨h1, h2, h3⟩ (polyline_circleOK _ _ _) _ _ _
    · exact ⟨h1, h2, h3⟩
  · by_cases hk2 : (row.kind.getD "polyline") = "circle"
    · have hcn : ¬(("circle" : String) = "polyline") := by decide
      rcases hrad : coerceField row.radius with _ | rr
      · simp only [csvRowStep, hx, hy, hr, hg2, hb, hk2, hrad]
        rw [if_pos trivial]
        split_ifs with hcp
        · exact accOK_append_el ⟨h1, h2, h3⟩ (polyline_circleOK _ _ _) _ _ _
        · exact ⟨h1, h2, h3⟩
      · simp only [csvRowStep, hx, hy, hr, hg2, hb, hk2, hrad]
        rw [if_pos trivial]
        split_ifs with hcp
        · exact accOK_append_el
            (accOK_append_el ⟨h1, h2, h3⟩ (polyline_circleOK _ _ _) _ _ _)
            (circle_el_OK _ _ _ _) _ _ _
        · exact accOK_append_el ⟨h1, h2, h3⟩ (circle_el_OK _ _ _ _) _ _ _
    · simp only [csvRowStep, hx, hy, hr, hg2, hb]
      rw [if_neg hk1, if_neg hk2]
      exact ⟨h1, h2, h3⟩

theorem accOK_csvLoop : ∀ (rows : List CsvRow) (a : ImportAcc), AccOK a →
    AccOK (csvLoop rows a).1 := by
  intro rows
  induction rows with
  | nil => intro a h; exact h
  | cons row rest ih =>
    intro a h
    rcases hs : csvRowStep a row with ⟨a1, flag⟩
    have hA1 : AccOK a1 := by
      have hstep := accOK_csvRowStep h row
      rw [hs] at hstep
      exact hstep
    cases flag with
    | false =>
      simp only [csvLoop, hs]
      exact ih a1 hA1
    | true =>
      simp only [csvLoop, hs]
      exact hA1

theorem accOK_csvFinish {a : ImportAcc} (h : AccOK a) : AccOK (csvFinish a) := by
  obtain ⟨h1, h2, h3⟩ := h
  unfold csvFinish
  split_ifs with hg
  · exact ⟨elements_append_OK h1 (polyline_circleOK _ _ _),
           entriesOK_cons (polyline_circleOK _ _ _) h2, entriesOK_nil⟩
  · exact ⟨h1, h2, h3⟩

theorem accOK_open_csv (rows : List CsvRow) (nid : Nat) :
    AccOK (open_csv rows nid).1 := by
  unfold open_csv
  rcases hl : csvLoop rows (freshAcc nid) with ⟨a, flag⟩
  have hA : AccOK a := by
    have hloop := accOK_csvLoop rows (freshAcc nid) (accOK_fresh nid)
    rw [hl] at hloop
    exact hloop
  cases flag with
  | false => exact accOK_csvFinish hA
  | true => exact hA

theorem tabOK_csv_import (g : Int) (rows : List CsvRow) (nid : Nat) :
    TabOK (csv_import_tab g rows nid) := by
  obtain ⟨h1, h2, h3⟩ := accOK_open_csv rows nid
  exact ⟨h1, h2, h3⟩

theorem tabOK_laser_import (g : Int) (lines : List LaserLine) (nid : Nat) :
    TabOK (laser_import_tab g lines nid) := by
  obtain ⟨h1, h2, h3⟩ :=
    accOK_laserFinish (accOK_laser_fold lines (freshAcc nid) (accOK_fresh nid))
  exact ⟨h1, h2, h3⟩

theorem reachable_tabOK : ∀ s, Reachable s → TabOK s := by
  intro s h
  induction h with
  | init g =>
    exact ⟨fun e he => absurd he (List.not_mem_nil e), entriesOK_nil, entriesOK_nil⟩
  | addTemp s1 p hs ih => exact ih
  | setCol s1 c hs ih => exact ih
  | commitPoly s1 fresh hs ih => exact tabOK_commit_polyline ih fresh
  | commitCircle s1 fresh cen r hs ih => exact tabOK_commit_circle ih fresh cen r
  | removeElR s1 el hs ih => exact tabOK_remove ih el
  | doUndo s1 hs ih => exact tabOK_tab_undo ih
  | doRedo s1 hs ih => exact tabOK_tab_redo ih
  | clearAllR s1 hs ih =>
    exact ⟨fun e he => absurd he (List.not_mem_nil e), entriesOK_nil, entriesOK_nil⟩
  | clearTempR s1 hs ih => exact ih
  | mutPoint s1 i k x y hs ih => exact tabOK_mutate_point ih i k x y
  | mutRadius s1 i v hs ih => exact tabOK_mutate_radius ih i v
  | csvImport g rows nid => exact tabOK_csv_import g rows nid
  | laserImport g lines nid => exact tabOK_laser_import g lines nid

/-- C10: in every document state reachable through the core editing API
(drawing commits, removal, undo, redo, clears, table edits, and both
importers), every element of kind circle has a points list of length exactly
one, holding its center. -/
theorem c10_circle_center_invariant (s : SceneTab) (h : Reachable s) :
    ∀ el ∈ s.elements, el.kind = "circle" → el.points.length = 1 :=
  fun el hel hk => (reachable_tabOK s h).1 el hel hk

/-- Witness for C10 at the state reached by committing one circle on a fresh
tab. -/
theorem c10_circle_center_invariant_witness :
    ((⟨0, "circle", [(5, 5)], (255, 0, 0), 3⟩ : SceneElement).points.length = 1) :=
  c10_circle_center_invariant (commit_circle_from_center (init_tab 255) 0 (5, 5) 3).1
    (Reachable.commitCircle (init_tab 255) 0 (5, 5) 3 (Reachable.init 255))
    ⟨0, "circle", [(5, 5)], (255, 0, 0), 3⟩ (by decide) rfl
